import Mathlib

/-!
Verification of the fonepay-node response verifier.

This file gives a shallow embedding of `src/core/verifyResponse.ts` and of the
Node.js primitives it relies on, and proves the specified properties of
`verifyResponse` against that embedding.

Modelling notes, keyed to the source:

* A response payload is a flat mapping from field names to string values
  (the query-string mapping described by the spec); we embed it as an
  association list, with `getField` as property lookup.  A JavaScript
  `field in response` test is `(getField p f).isSome`, and reading an absent
  property yields `undefined`, i.e. `none`.
* `Buffer.from(s, "hex")` does not throw on malformed input: it decodes hex
  digit pairs and truncates at the first character that is not a hex digit
  (a trailing lone digit is likewise dropped).  `hexDecode` models this.
* `crypto.timingSafeEqual(a, b)` throws a `RangeError` when the buffers have
  different lengths and otherwise reports byte equality; the throw is caught
  by the verifier and becomes a `false` return.
* The `try`/`catch` structure is embedded by `verifyCoreWith`, which returns
  `Except String Bool` (`.error` for every internally thrown error), and
  `verifyResponseWith`, which is the `catch` boundary mapping every error to
  `false`.
* `generateHmacSha512` and `RESPONSE_CODE.SUCCESSFUL` live in the
  repository's `utils`/`types` modules, which are not part of the provided
  sources; they are modelled from the spec (HMAC-SHA512 with hex output, and
  the literal success sentinel "successful").  The SHA-512 round constants
  are derived, as in FIPS 180-4, from the fractional parts of the cube roots
  (resp. square roots) of the first primes; `sha512K_derivation` checks the
  literal tables against that derivation, and known-answer theorems check
  the whole construction against standard SHA-512 / HMAC-SHA512 test
  vectors.
-/

/-- 2^64, the modulus for SHA-512 word arithmetic. -/
def M64 : Nat := 18446744073709551616

/-- Right rotation of a 64-bit word (input assumed < 2^64). -/
def rotr (n x : Nat) : Nat := (x / 2 ^ n) + (x % 2 ^ n) * 2 ^ (64 - n)

/-- Right shift of a 64-bit word. -/
def shr (n x : Nat) : Nat := x / 2 ^ n

/-- SHA-512 big sigma 0. -/
def bsig0 (x : Nat) : Nat := (rotr 28 x) ^^^ (rotr 34 x) ^^^ (rotr 39 x)

/-- SHA-512 big sigma 1. -/
def bsig1 (x : Nat) : Nat := (rotr 14 x) ^^^ (rotr 18 x) ^^^ (rotr 41 x)

/-- SHA-512 small sigma 0. -/
def ssig0 (x : Nat) : Nat := (rotr 1 x) ^^^ (rotr 8 x) ^^^ (shr 7 x)

/-- SHA-512 small sigma 1. -/
def ssig1 (x : Nat) : Nat := (rotr 19 x) ^^^ (rotr 61 x) ^^^ (shr 6 x)

/-- SHA-512 choice function; the complement is taken within 64 bits. -/
def chF (e f g : Nat) : Nat := (e &&& f) ^^^ ((e ^^^ (M64 - 1)) &&& g)

/-- SHA-512 majority function. -/
def majF (a b c : Nat) : Nat := (a &&& b) ^^^ (a &&& c) ^^^ (b &&& c)

/-- Bounded binary search for the integer cube root (helper for deriving the
SHA-512 round constants from the first 80 primes). -/
def icbrtGo (n : Nat) : Nat → Nat → Nat → Nat
  | lo, _, 0 => lo
  | lo, hi, fuel+1 =>
    if hi ≤ lo + 1 then lo
    else
      let m := (lo + hi) / 2
      if m ^ 3 ≤ n then icbrtGo n m hi fuel else icbrtGo n lo m fuel

/-- Integer cube root. -/
def icbrt (n : Nat) : Nat := icbrtGo n 0 (n + 1) 300

/-- Bounded binary search for the integer square root (helper for deriving the
SHA-512 initial hash value from the first 8 primes). -/
def isqrtGo (n : Nat) : Nat → Nat → Nat → Nat
  | lo, _, 0 => lo
  | lo, hi, fuel+1 =>
    if hi ≤ lo + 1 then lo
    else
      let m := (lo + hi) / 2
      if m ^ 2 ≤ n then isqrtGo n m hi fuel else isqrtGo n lo m fuel

/-- Integer square root. -/
def isqrt (n : Nat) : Nat := isqrtGo n 0 (n + 1) 300

/-- The first 80 primes, used by FIPS 180-4 to derive the SHA-512 constants. -/
def sha512Primes : List Nat :=
  [2, 3, 5, 7, 11, 13, 17, 19, 23, 29, 31, 37, 41, 43, 47, 53, 59, 61, 67, 71,
   73, 79, 83, 89, 97, 101, 103, 107, 109, 113, 127, 131, 137, 139, 149, 151,
   157, 163, 167, 173, 179, 181, 191, 193, 197, 199, 211, 223, 227, 229, 233,
   239, 241, 251, 257, 263, 269, 271, 277, 281, 283, 293, 307, 311, 313, 317,
   331, 337, 347, 349, 353, 359, 367, 373, 379, 383, 389, 397, 401, 409]

/-- The SHA-512 round constants as defined by FIPS 180-4: the first 64 bits of
the fractional parts of the cube roots of the first 80 primes. -/
def sha512KDerived : List Nat := sha512Primes.map (fun p => icbrt (p * 2 ^ 192) % M64)

/-- The SHA-512 initial hash value as defined by FIPS 180-4: the first 64 bits
of the fractional parts of the square roots of the first 8 primes. -/
def sha512HDerived : List Nat :=
  (sha512Primes.take 8).map (fun p => isqrt (p * 2 ^ 128) % M64)

/-- Eight 64-bit words: the SHA-512 working state. -/
structure Words8 where
  a : Nat
  b : Nat
  c : Nat
  d : Nat
  e : Nat
  f : Nat
  g : Nat
  h : Nat

/-- The SHA-512 round constants (literal table; `sha512K_derivation` proves it
equal to `sha512KDerived`). -/
def sha512K : List Nat :=
  [4794697086780616226, 8158064640168781261, 13096744586834688815, 16840607885511220156,
   4131703408338449720, 6480981068601479193, 10538285296894168987, 12329834152419229976,
   15566598209576043074, 1334009975649890238, 2608012711638119052, 6128411473006802146,
   8268148722764581231, 9286055187155687089, 11230858885718282805, 13951009754708518548,
   16472876342353939154, 17275323862435702243, 1135362057144423861, 2597628984639134821,
   3308224258029322869, 5365058923640841347, 6679025012923562964, 8573033837759648693,
   10970295158949994411, 12119686244451234320, 12683024718118986047, 13788192230050041572,
   14330467153632333762, 15395433587784984357, 489312712824947311, 1452737877330783856,
   2861767655752347644, 3322285676063803686, 5560940570517711597, 5996557281743188959,
   7280758554555802590, 8532644243296465576, 9350256976987008742, 10552545826968843579,
   11727347734174303076, 12113106623233404929, 14000437183269869457, 14369950271660146224,
   15101387698204529176, 15463397548674623760, 17586052441742319658, 1182934255886127544,
   1847814050463011016, 2177327727835720531, 2830643537854262169, 3796741975233480872,
   4115178125766777443, 5681478168544905931, 6601373596472566643, 7507060721942968483,
   8399075790359081724, 8693463985226723168, 9568029438360202098, 10144078919501101548,
   10430055236837252648, 11840083180663258601, 13761210420658862357, 14299343276471374635,
   14566680578165727644, 15097957966210449927, 16922976911328602910, 17689382322260857208,
   500013540394364858, 748580250866718886, 1242879168328830382, 1977374033974150939,
   2944078676154940804, 3659926193048069267, 4368137639120453308, 4836135668995329356,
   5532061633213252278, 6448918945643986474, 6902733635092675308, 7801388544844847127]

/-- The SHA-512 initial hash value (literal; `sha512H0_derivation` proves it
equal to `sha512HDerived`). -/
def sha512H0 : Words8 :=
  ⟨7640891576956012808, 13503953896175478587, 4354685564936845355, 11912009170470909681,
   5840696475078001361, 11170449401992604703, 2270897969802886507, 6620516959819538809⟩

/-- One SHA-512 round: `kw` is the pair of round constant and schedule word. -/
def compressStep (st : Words8) (kw : Nat × Nat) : Words8 :=
  let t1 := (st.h + bsig1 st.e + chF st.e st.f st.g + kw.1 + kw.2) % M64
  let t2 := (bsig0 st.a + majF st.a st.b st.c) % M64
  ⟨(t1 + t2) % M64, st.a, st.b, st.c, (st.d + t1) % M64, st.e, st.f, st.g⟩

/-- Message-schedule extension: `window` holds the previous 16 schedule words,
oldest first; each step emits one new word. -/
def scheduleGo : Nat → List Nat → List Nat
  | 0, _ => []
  | n+1, window =>
    let wt := (window.getD 0 0 + ssig0 (window.getD 1 0) + window.getD 9 0
               + ssig1 (window.getD 14 0)) % M64
    wt :: scheduleGo n (window.drop 1 ++ [wt])

/-- Parse `n` big-endian 64-bit words from a byte list. -/
def toWordsBE : Nat → List Nat → List Nat
  | 0, _ => []
  | n+1, bytes =>
    (bytes.take 8).foldl (fun acc b => acc * 256 + b) 0 :: toWordsBE n (bytes.drop 8)

/-- The `k` big-endian bytes of `n` (most significant first). -/
def toBytesBE : Nat → Nat → List Nat
  | 0, _ => []
  | k+1, n => toBytesBE k (n / 256) ++ [n % 256]

/-- SHA-512 compression of one 128-byte block. -/
def compressBlock (st : Words8) (block : List Nat) : Words8 :=
  let w16 := toWordsBE 16 block
  let w := w16 ++ scheduleGo 64 w16
  let fin := (sha512K.zip w).foldl compressStep st
  ⟨(st.a + fin.a) % M64, (st.b + fin.b) % M64, (st.c + fin.c) % M64,
   (st.d + fin.d) % M64, (st.e + fin.e) % M64, (st.f + fin.f) % M64,
   (st.g + fin.g) % M64, (st.h + fin.h) % M64⟩

/-- Split a byte list into 128-byte blocks (fuel-driven; the fuel is the list
length, which suffices since every step consumes at least one byte). -/
def chunk128 : Nat → List Nat → List (List Nat)
  | 0, _ => []
  | fuel+1, bytes =>
    if bytes.isEmpty then [] else bytes.take 128 :: chunk128 fuel (bytes.drop 128)

/-- The SHA-512 padding: a 0x80 byte, zeros, and the 128-bit big-endian bit
length, bringing the length to a multiple of 128 bytes. -/
def sha512Pad (msg : List Nat) : List Nat :=
  let l := msg.length
  let zeros := (128 - ((l + 17) % 128)) % 128
  msg ++ [128] ++ List.replicate zeros 0 ++ toBytesBE 16 (l * 8)

/-- Serialize the final state as 64 big-endian digest bytes. -/
def wordsToBytes (st : Words8) : List Nat :=
  toBytesBE 8 st.a ++ toBytesBE 8 st.b ++ toBytesBE 8 st.c ++ toBytesBE 8 st.d ++
  toBytesBE 8 st.e ++ toBytesBE 8 st.f ++ toBytesBE 8 st.g ++ toBytesBE 8 st.h

/-- SHA-512 of a byte list. -/
def sha512 (msg : List Nat) : List Nat :=
  let padded := sha512Pad msg
  wordsToBytes ((chunk128 (padded.length) padded).foldl compressBlock sha512H0)

/-- UTF-8 encoding of one character (Node.js buffers strings as UTF-8). -/
def utf8Bytes (c : Char) : List Nat :=
  let n := c.toNat
  if n < 128 then [n]
  else if n < 2048 then [192 + n / 64, 128 + n % 64]
  else if n < 65536 then [224 + n / 4096, 128 + (n / 64) % 64, 128 + n % 64]
  else [240 + n / 262144, 128 + (n / 4096) % 64, 128 + (n / 64) % 64, 128 + n % 64]

/-- UTF-8 bytes of a string. -/
def strBytes (s : String) : List Nat :=
  s.data.foldr (fun c acc => utf8Bytes c ++ acc) []

/-- HMAC-SHA512 (RFC 2104 with SHA-512): the raw 64-byte digest over the UTF-8
bytes of `message`, keyed by the UTF-8 bytes of `secretKey`. -/
def hmacSha512Bytes (message secretKey : String) : List Nat :=
  let keyBytes := strBytes secretKey
  let k0 := if 128 < keyBytes.length then sha512 keyBytes else keyBytes
  let k0p := k0 ++ List.replicate (128 - k0.length) 0
  let ipad := k0p.map (fun b => b ^^^ 54)
  let opad := k0p.map (fun b => b ^^^ 92)
  sha512 (opad ++ sha512 (ipad ++ strBytes message))

/-- Lower-case hex digit for a value below 16 (Node digests are lower-case). -/
def hexDigitChar (n : Nat) : Char := Char.ofNat (if n < 10 then 48 + n else 87 + n)

/-- Lower-case hex encoding of a byte list, as produced by Node's
`digest("hex")`. -/
def hexEncode (bytes : List Nat) : String :=
  ⟨bytes.foldr (fun b acc => hexDigitChar (b / 16) :: hexDigitChar (b % 16) :: acc) []⟩

/-- HMAC-SHA512 with hex-encoded output. -/
def hmacSha512Hex (message secretKey : String) : String :=
  hexEncode (hmacSha512Bytes message secretKey)

/-- Modelled from the spec: `generateHmacSha512` lives in the repository's
`utils` module, which is not among the provided sources.  Per the spec it
computes a SHA-512-based HMAC over the canonical message using the secret key
as the key and produces the digest as a hex string (the source calls
`crypto.createHmac` / `digest("hex")`). -/
def generateHmacSha512 (message secretKey : String) : String :=
  hmacSha512Hex message secretKey

/-- Modelled from the spec: `RESPONSE_CODE.SUCCESSFUL` lives in the
repository's `types` module, which is not among the provided sources.  Per the
spec the success sentinel is the gateway's fixed literal "successful". -/
def RESPONSE_CODE_SUCCESSFUL : String := "successful"

/-- Numeric value of a hex digit character, if any (0-9, a-f, A-F). -/
def hexVal (c : Char) : Option Nat :=
  let n := c.toNat
  if 48 ≤ n ∧ n ≤ 57 then some (n - 48)
  else if 97 ≤ n ∧ n ≤ 102 then some (n - 87)
  else if 65 ≤ n ∧ n ≤ 70 then some (n - 55)
  else none

/-- Hex decoding of a character list with Node.js `Buffer.from(s, "hex")`
semantics: digits are consumed in pairs, and decoding stops (truncates,
without error) at the first pair containing a non-hex character; a trailing
lone digit is dropped. -/
def hexDecodeList : List Char → List Nat
  | c1 :: c2 :: rest =>
    match hexVal c1, hexVal c2 with
    | some h1, some h2 => (16 * h1 + h2) :: hexDecodeList rest
    | _, _ => []
  | _ => []

/-- `Buffer.from(s, "hex")` as a byte list. -/
def hexDecode (s : String) : List Nat := hexDecodeList s.data

/-- True when a string is a well-formed hex encoding of a byte sequence:
even length and every character a hex digit. -/
def isHexString (s : String) : Bool :=
  s.data.all (fun c => (hexVal c).isSome) && s.data.length % 2 == 0

/-- A response payload: a flat mapping of field names to string values,
embedded as an association list (first binding wins). -/
def Payload : Type := List (String × String)

/-- Property lookup on a payload; `none` models JavaScript `undefined`. -/
def getField : Payload → String → Option String
  | [], _ => none
  | (k, v) :: rest, f => if f = k then some v else getField rest f

/-- JavaScript `Array.prototype.join(sep)`. -/
def joinWith (sep : String) : List String → String
  | [] => ""
  | [v] => v
  | v :: rest => v ++ sep ++ joinWith sep rest

/-- The fixed field order of `verifyResponse.ts` (the `order` constant). -/
def order : List String :=
  ["PRN", "PID", "PS", "RC", "UID", "BC", "INI", "P_AMT", "R_AMT"]

/-- `order.filter((field) => !(field in response))` from the source. -/
def missingFields (p : Payload) : List String :=
  order.filter (fun f => (getField p f).isNone)

/-- `order.map((key) => response[key]).join(",")` from the source. -/
def concatenatedValues (p : Payload) : String :=
  joinWith "," (order.map (fun k => (getField p k).getD ""))

/-- The body of the `try` block of `verifyResponse`, parameterised by the
HMAC function; every path that throws in the source is an `.error`.  The
successive steps mirror the source: the null/empty guard, the response-code
gate (an `.ok false` return, not a throw), the missing-field check, hash
generation, `Buffer.from(response.DV, "hex")` (a `TypeError` when `DV` is
absent, i.e. `undefined`), and `crypto.timingSafeEqual`, which throws a
`RangeError` when the decoded buffers differ in length. -/
def verifyCoreWith (hmac : String → String → String) (response : Option Payload)
    (secretKey : String) : Except String Bool :=
  match response with
  | none => .error "Response and secret key are required"
  | some p =>
    if secretKey = "" then .error "Response and secret key are required"
    else if getField p "RC" ≠ some RESPONSE_CODE_SUCCESSFUL then .ok false
    else if 0 < (missingFields p).length then
      .error ("Missing required fields in response: " ++ joinWith ", " (missingFields p))
    else
      let calculatedHash := hmac (concatenatedValues p) secretKey
      if calculatedHash = "" then .error "Failed to generate hash for response verification"
      else
        let calculatedDV := hexDecode calculatedHash
        match getField p "DV" with
        | none => .error "The first argument must be of type string"
        | some dv =>
          let fonepayDV := hexDecode dv
          if calculatedDV.length ≠ fonepayDV.length then
            .error "Input buffers must have the same byte length"
          else .ok (calculatedDV == fonepayDV)

/-- The `catch` boundary of `verifyResponse`: every internal error becomes a
logged message and a `false` return. -/
def verifyResponseWith (hmac : String → String → String) (response : Option Payload)
    (secretKey : String) : Bool :=
  match verifyCoreWith hmac response secretKey with
  | .ok b => b
  | .error _ => false

/-- `verifyResponse(response, secretKey)` from `src/core/verifyResponse.ts`. -/
def verifyResponse (response : Option Payload) (secretKey : String) : Bool :=
  verifyResponseWith generateHmacSha512 response secretKey

/-- Character-level case equivalence: equal characters, or an ASCII letter and
its other-case counterpart (code points 32 apart). -/
def charCaseEquiv (c1 c2 : Char) : Prop :=
  c1 = c2 ∨
  (((65 ≤ c1.toNat ∧ c1.toNat ≤ 90) ∨ (97 ≤ c1.toNat ∧ c1.toNat ≤ 122)) ∧
   ((65 ≤ c2.toNat ∧ c2.toNat ≤ 90) ∨ (97 ≤ c2.toNat ∧ c2.toNat ≤ 122)) ∧
   (c1.toNat + 32 = c2.toNat ∨ c2.toNat + 32 = c1.toNat))

instance charCaseEquivDec (c1 c2 : Char) : Decidable (charCaseEquiv c1 c2) := by
  unfold charCaseEquiv
  infer_instance

/-- Two character lists that agree except for the case of letters. -/
def strCaseEquivL : List Char → List Char → Prop
  | [], [] => True
  | c1 :: r1, c2 :: r2 => charCaseEquiv c1 c2 ∧ strCaseEquivL r1 r2
  | _, _ => False

instance strCaseEquivLDec : (l1 l2 : List Char) → Decidable (strCaseEquivL l1 l2)
  | [], [] => isTrue trivial
  | [], _ :: _ => isFalse (fun h => h)
  | _ :: _, [] => isFalse (fun h => h)
  | c1 :: r1, c2 :: r2 =>
    have : Decidable (strCaseEquivL r1 r2) := strCaseEquivLDec r1 r2
    inferInstanceAs (Decidable (charCaseEquiv c1 c2 ∧ strCaseEquivL r1 r2))

/-- Relation between two optional `DV` values: both absent, or both present
and equal up to the case of their letter characters. -/
def dvCaseEquiv : Option String → Option String → Prop
  | none, none => True
  | some d1, some d2 => strCaseEquivL d1.data d2.data
  | _, _ => False

instance dvCaseEquivDec : (o1 o2 : Option String) → Decidable (dvCaseEquiv o1 o2)
  | none, none => isTrue trivial
  | none, some _ => isFalse (fun h => h)
  | some _, none => isFalse (fun h => h)
  | some d1, some d2 => inferInstanceAs (Decidable (strCaseEquivL d1.data d2.data))

/-- The spec's end-to-end example payload (§8), with `DV` set to the hex
HMAC-SHA512 digest of the canonical message under the key "s3cr3t". -/
def exPayload : Payload :=
  [("PRN", "ORDER1"), ("PID", "M001"), ("PS", "success"), ("RC", "successful"),
   ("UID", "T123"), ("BC", "B01"), ("INI", "C"), ("P_AMT", "100.00"),
   ("R_AMT", "0.00"),
   ("DV", "a0cb792269655762c73bacd62abb7ca5e67456b45e78012124bc223a5977ef58f5f7e81ee7d6a4db41b5651114bb4215948e84ea924ec861a45c5fdd2c4a7d51")]

/-- A `DV` value that is not well-formed hex: the correct digest for
`exPayload` under the key "s3cr3t", followed by the non-hex characters "zz".
`Buffer.from(_, "hex")` truncates at the first non-hex character, so this
decodes to exactly the correct digest bytes. -/
def cexDV : String :=
  "a0cb792269655762c73bacd62abb7ca5e67456b45e78012124bc223a5977ef58f5f7e81ee7d6a4db41b5651114bb4215948e84ea924ec861a45c5fdd2c4a7d51zz"

/-- The spec's example payload with the malformed `DV` value `cexDV`. -/
def cexPayload : Payload :=
  [("PRN", "ORDER1"), ("PID", "M001"), ("PS", "success"), ("RC", "successful"),
   ("UID", "T123"), ("BC", "B01"), ("INI", "C"), ("P_AMT", "100.00"),
   ("R_AMT", "0.00"), ("DV", cexDV)]

/-- The literal SHA-512 round-constant table equals its FIPS 180-4 derivation
from the cube roots of the first 80 primes. -/
theorem sha512K_derivation : sha512K = sha512KDerived := by decide!

/-- The literal SHA-512 initial state equals its FIPS 180-4 derivation from
the square roots of the first 8 primes. -/
theorem sha512H0_derivation :
    [sha512H0.a, sha512H0.b, sha512H0.c, sha512H0.d,
     sha512H0.e, sha512H0.f, sha512H0.g, sha512H0.h] = sha512HDerived := by decide!

/-- Known-answer test: SHA-512 of "abc" (FIPS 180-4 example vector). -/
theorem sha512_kat_abc :
    hexEncode (sha512 (strBytes "abc")) =
      "ddaf35a193617abacc417349ae20413112e6fa4e89a97ea20a9eeee64b55d39a2192992a274fc1a836ba3c23a3feebbd454d4423643ce80e2a9ac94fa54ca49f" := by
  decide!

/-- Known-answer test: HMAC-SHA512 with key "key" over the standard test
message. -/
theorem hmacSha512_kat :
    hmacSha512Hex "The quick brown fox jumps over the lazy dog" "key" =
      "b42af09057bac1e2d41708e48a902e09b5ff7f12ab428a4fe86653c73dd248fb82f948a549f7b791a5b41915ee4d1ec3935357e4e2317250d0372afa2ebeeb3a" := by
  decide!

theorem toBytesBE_length (k : Nat) : ∀ n, (toBytesBE k n).length = k := by
  induction k with
  | zero => intro n; rfl
  | succ k ih => intro n; simp [toBytesBE, ih]

theorem toBytesBE_mem_lt (k : Nat) : ∀ n, ∀ b ∈ toBytesBE k n, b < 256 := by
  induction k with
  | zero => intro n b hb; simp [toBytesBE] at hb
  | succ k ih =>
    intro n b hb
    simp only [toBytesBE, List.mem_append, List.mem_singleton] at hb
    rcases hb with hb | hb
    · exact ih _ b hb
    · subst hb; exact Nat.mod_lt _ (by norm_num)

theorem wordsToBytes_length (st : Words8) : (wordsToBytes st).length = 64 := by
  simp [wordsToBytes, toBytesBE_length]

theorem wordsToBytes_mem_lt (st : Words8) : ∀ b ∈ wordsToBytes st, b < 256 := by
  intro b hb
  simp only [wordsToBytes, List.mem_append] at hb
  rcases hb with ((((((hb | hb) | hb) | hb) | hb) | hb) | hb) | hb <;>
    exact toBytesBE_mem_lt 8 _ b hb

theorem sha512_length (msg : List Nat) : (sha512 msg).length = 64 :=
  wordsToBytes_length _

theorem sha512_mem_lt (msg : List Nat) : ∀ b ∈ sha512 msg, b < 256 :=
  wordsToBytes_mem_lt _

theorem hmacSha512Bytes_length (m k : String) : (hmacSha512Bytes m k).length = 64 :=
  sha512_length _

theorem hmacSha512Bytes_mem_lt (m k : String) : ∀ b ∈ hmacSha512Bytes m k, b < 256 :=
  sha512_mem_lt _

theorem hexVal_hexDigitChar (h : Nat) (hh : h < 16) :
    hexVal (hexDigitChar h) = some h := by
  interval_cases h <;> rfl

theorem hexDecode_hexEncode (bytes : List Nat) (hb : ∀ b ∈ bytes, b < 256) :
    hexDecode (hexEncode bytes) = bytes := by
  induction bytes with
  | nil => rfl
  | cons b bs ih =>
    have hb0 : b < 256 := hb b (by simp)
    have h1 : b / 16 < 16 := (Nat.div_lt_iff_lt_mul (by norm_num)).mpr (by omega)
    have h2 : b % 16 < 16 := Nat.mod_lt _ (by norm_num)
    show hexDecodeList (hexEncode (b :: bs)).data = b :: bs
    simp only [hexEncode, List.foldr]
    show hexDecodeList (hexDigitChar (b / 16) :: hexDigitChar (b % 16) :: _) = b :: bs
    rw [hexDecodeList, hexVal_hexDigitChar _ h1, hexVal_hexDigitChar _ h2]
    refine congrArg₂ List.cons (by omega) ?_
    exact ih (fun x hx => hb x (List.mem_cons_of_mem _ hx))

theorem hexEncode_ne_empty (b : Nat) (bs : List Nat) : hexEncode (b :: bs) ≠ "" := by
  simp [hexEncode, String.ext_iff]

theorem generateHmacSha512_ne_empty (m k : String) : generateHmacSha512 m k ≠ "" := by
  have hlen := hmacSha512Bytes_length m k
  rcases hbytes : hmacSha512Bytes m k with _ | ⟨b, bs⟩
  · rw [hbytes] at hlen; simp at hlen
  · show hexEncode (hmacSha512Bytes m k) ≠ ""
    rw [hbytes]
    exact hexEncode_ne_empty b bs

theorem hexDecode_generateHmacSha512 (m k : String) :
    hexDecode (generateHmacSha512 m k) = hmacSha512Bytes m k :=
  hexDecode_hexEncode _ (hmacSha512Bytes_mem_lt m k)

theorem hexVal_charCaseEquiv (c1 c2 : Char) (h : charCaseEquiv c1 c2) :
    hexVal c1 = hexVal c2 := by
  rcases h with heq | ⟨h1, h2, h3⟩
  · rw [heq]
  · simp only [hexVal]
    split_ifs <;> first
      | rfl
      | (exfalso; omega)
      | (simp only [Option.some.injEq]; omega)

theorem hexDecodeList_caseEquiv :
    ∀ (l1 l2 : List Char), strCaseEquivL l1 l2 → hexDecodeList l1 = hexDecodeList l2
  | [], [], _ => rfl
  | [], _ :: _, h => h.elim
  | _ :: _, [], h => h.elim
  | [_], [_], _ => rfl
  | [_], _ :: _ :: _, h => h.2.elim
  | _ :: _ :: _, [_], h => h.2.elim
  | c1 :: d1 :: r1, c2 :: d2 :: r2, h => by
    have hc := hexVal_charCaseEquiv c1 c2 h.1
    have hd := hexVal_charCaseEquiv d1 d2 h.2.1
    have ih := hexDecodeList_caseEquiv r1 r2 h.2.2
    simp only [hexDecodeList]
    rw [hc, hd, ih]

theorem hexDecode_caseEquiv (d1 d2 : String) (h : strCaseEquivL d1.data d2.data) :
    hexDecode d1 = hexDecode d2 :=
  hexDecodeList_caseEquiv d1.data d2.data h

theorem verifyResponseWith_rc_not_successful (hmac : String → String → String)
    (p : Payload) (k : String) (h : getField p "RC" ≠ some RESPONSE_CODE_SUCCESSFUL) :
    verifyResponseWith hmac (some p) k = false := by
  by_cases hk : k = "" <;>
    simp [verifyResponseWith, verifyCoreWith, hk, h]


theorem verifyCore_after_guards (hmac : String → String → String) (p : Payload)
    (k dv : String) (hk : ¬ k = "")
    (hrc : getField p "RC" = some RESPONSE_CODE_SUCCESSFUL)
    (hmiss : missingFields p = [])
    (hhash : hmac (concatenatedValues p) k ≠ "") (hdv : getField p "DV" = some dv) :
    verifyCoreWith hmac (some p) k =
      (if (hexDecode (hmac (concatenatedValues p) k)).length ≠ (hexDecode dv).length
       then Except.error "Input buffers must have the same byte length"
       else Except.ok (hexDecode (hmac (concatenatedValues p) k) == hexDecode dv)) := by
  simp only [verifyCoreWith]
  simp [hk, hrc, hmiss, hhash, hdv]

theorem verifyResponse_true_characterization (p : Payload)
    (k v1 v2 v3 v4 v5 v6 v7 v8 v9 dv : String) (hk : k ≠ "")
    (h1 : getField p "PRN" = some v1) (h2 : getField p "PID" = some v2)
    (h3 : getField p "PS" = some v3) (h4 : getField p "RC" = some v4)
    (h5 : getField p "UID" = some v5) (h6 : getField p "BC" = some v6)
    (h7 : getField p "INI" = some v7) (h8 : getField p "P_AMT" = some v8)
    (h9 : getField p "R_AMT" = some v9) (h10 : getField p "DV" = some dv) :
    (verifyResponse (some p) k = true ↔
      (v4 = RESPONSE_CODE_SUCCESSFUL ∧
       hexDecode dv =
         hmacSha512Bytes (joinWith "," [v1, v2, v3, v4, v5, v6, v7, v8, v9]) k)) := by
  have hmsg : concatenatedValues p = joinWith "," [v1, v2, v3, v4, v5, v6, v7, v8, v9] := by
    simp [concatenatedValues, order, h1, h2, h3, h4, h5, h6, h7, h8, h9]
  have hmiss : missingFields p = [] := by
    simp [missingFields, order, h1, h2, h3, h4, h5, h6, h7, h8, h9]
  by_cases hv4 : v4 = RESPONSE_CODE_SUCCESSFUL
  · have hrc : getField p "RC" = some RESPONSE_CODE_SUCCESSFUL := by rw [h4, hv4]
    have hdig : hexDecode (generateHmacSha512 (concatenatedValues p) k) =
        hmacSha512Bytes (joinWith "," [v1, v2, v3, v4, v5, v6, v7, v8, v9]) k := by
      rw [hexDecode_generateHmacSha512, hmsg]
    have hcore := verifyCore_after_guards generateHmacSha512 p k dv hk hrc hmiss
      (generateHmacSha512_ne_empty _ _) h10
    by_cases hlen :
        (hexDecode (generateHmacSha512 (concatenatedValues p) k)).length =
          (hexDecode dv).length
    · rw [if_neg (by exact fun hcontra => hcontra hlen)] at hcore
      simp only [verifyResponse, verifyResponseWith, hcore]
      rw [hdig]
      simp only [beq_iff_eq, hv4, true_and]
      exact ⟨fun h => h.symm, fun h => h.symm⟩
    · rw [if_pos hlen] at hcore
      simp only [verifyResponse, verifyResponseWith, hcore]
      constructor
      · intro h; exact absurd h (by simp)
      · rintro ⟨-, heq⟩
        exact absurd (by rw [hdig, heq]) hlen
  · have hrc : getField p "RC" ≠ some RESPONSE_CODE_SUCCESSFUL := by
      rw [h4]; simp [hv4]
    rw [verifyResponse, verifyResponseWith_rc_not_successful _ _ _ hrc]
    simp [hv4]

/-- C1: for every payload containing all ten fields (PRN, PID, PS, RC, UID,
BC, INI, P_AMT, R_AMT, DV) and every non-empty secretKey, `verifyResponse`
returns true if and only if the payload's `RC` equals the success sentinel
(case-sensitively) and the hex-decoding of the payload's `DV` is byte-for-byte
equal to the HMAC-SHA512 digest, keyed by the secret key, of the canonical
comma-joined message of the nine non-DV field values. -/
theorem C1_verifyResponse_success_iff (p : Payload)
    (k v1 v2 v3 v4 v5 v6 v7 v8 v9 dv : String) (hk : k ≠ "")
    (h1 : getField p "PRN" = some v1) (h2 : getField p "PID" = some v2)
    (h3 : getField p "PS" = some v3) (h4 : getField p "RC" = some v4)
    (h5 : getField p "UID" = some v5) (h6 : getField p "BC" = some v6)
    (h7 : getField p "INI" = some v7) (h8 : getField p "P_AMT" = some v8)
    (h9 : getField p "R_AMT" = some v9) (h10 : getField p "DV" = some dv) :
    (verifyResponse (some p) k = true ↔
      (v4 = RESPONSE_CODE_SUCCESSFUL ∧
       hexDecode dv =
         hmacSha512Bytes (joinWith "," [v1, v2, v3, v4, v5, v6, v7, v8, v9]) k)) :=
  verifyResponse_true_characterization p k v1 v2 v3 v4 v5 v6 v7 v8 v9 dv hk
    h1 h2 h3 h4 h5 h6 h7 h8 h9 h10

theorem C1_verifyResponse_success_iff_witness :
    (verifyResponse (some exPayload) "s3cr3t" = true ↔
      ("successful" = RESPONSE_CODE_SUCCESSFUL ∧
       hexDecode "a0cb792269655762c73bacd62abb7ca5e67456b45e78012124bc223a5977ef58f5f7e81ee7d6a4db41b5651114bb4215948e84ea924ec861a45c5fdd2c4a7d51" =
         hmacSha512Bytes
           (joinWith "," ["ORDER1", "M001", "success", "successful", "T123", "B01",
                          "C", "100.00", "0.00"]) "s3cr3t")) :=
  C1_verifyResponse_success_iff exPayload "s3cr3t" "ORDER1" "M001" "success"
    "successful" "T123" "B01" "C" "100.00" "0.00"
    "a0cb792269655762c73bacd62abb7ca5e67456b45e78012124bc223a5977ef58f5f7e81ee7d6a4db41b5651114bb4215948e84ea924ec861a45c5fdd2c4a7d51"
    (by decide) rfl rfl rfl rfl rfl rfl rfl rfl rfl rfl

/-- C2: for every input pair (any payload value, including a null payload or a
mapping with arbitrary missing fields, and any secretKey), `verifyResponse`
returns a boolean determined by its internal computation: an `.ok` outcome of
the try block is returned as-is, and every internally thrown error is caught
and converted to a `false` return, so no exception propagates to the
caller. -/
theorem C2_verifyResponse_total_catch (r : Option Payload) (k : String) :
    (∃ b, verifyCoreWith generateHmacSha512 r k = Except.ok b ∧
      verifyResponse r k = b) ∨
    (∃ m, verifyCoreWith generateHmacSha512 r k = Except.error m ∧
      verifyResponse r k = false) := by
  rcases h : verifyCoreWith generateHmacSha512 r k with m | b
  · right; exact ⟨m, rfl, by simp [verifyResponse, verifyResponseWith, h]⟩
  · left; exact ⟨b, rfl, by simp [verifyResponse, verifyResponseWith, h]⟩

/-- C3: for every payload whose `RC` is not exactly the success sentinel,
`verifyResponse` returns false immediately; moreover the same false result is
produced by `verifyResponseWith` for an arbitrary HMAC function, which shows
that no HMAC is computed and that the result is independent of `DV`, of the
secret key, and of all other payload fields. -/
theorem C3_verifyResponse_rc_gate (p : Payload) (k : String)
    (hmac : String → String → String)
    (h : getField p "RC" ≠ some RESPONSE_CODE_SUCCESSFUL) :
    verifyResponse (some p) k = false ∧
      verifyResponseWith hmac (some p) k = false :=
  ⟨verifyResponseWith_rc_not_successful generateHmacSha512 p k h,
   verifyResponseWith_rc_not_successful hmac p k h⟩

theorem C3_verifyResponse_rc_gate_witness :
    verifyResponse (some [("RC", "failure"), ("DV", "00")]) "key1" = false ∧
      verifyResponseWith (fun m _ => m) (some [("RC", "failure"), ("DV", "00")])
        "key1" = false :=
  C3_verifyResponse_rc_gate [("RC", "failure"), ("DV", "00")] "key1"
    (fun m _ => m) (by decide)

/-- C4: for every payload in which any one of the nine required non-DV fields
is absent as a key, `verifyResponse` returns false, for every secretKey. -/
theorem C4_verifyResponse_missing_field (p : Payload) (k f : String)
    (hf : f ∈ order) (habs : getField p f = none) :
    verifyResponse (some p) k = false := by
  by_cases hk : k = ""
  · simp [verifyResponse, verifyResponseWith, verifyCoreWith, hk]
  · by_cases hrc : getField p "RC" = some RESPONSE_CODE_SUCCESSFUL
    · have hmem : f ∈ missingFields p :=
        List.mem_filter.mpr ⟨hf, by simp [habs]⟩
      have hpos : 0 < (missingFields p).length :=
        List.length_pos.mpr (List.ne_nil_of_mem hmem)
      simp [verifyResponse, verifyResponseWith, verifyCoreWith, hk, hrc, hpos]
    · exact verifyResponseWith_rc_not_successful _ _ _ hrc

theorem C4_verifyResponse_missing_field_witness :
    verifyResponse (some [("RC", "successful"), ("PID", "M001")]) "key1" = false :=
  C4_verifyResponse_missing_field [("RC", "successful"), ("PID", "M001")]
    "key1" "PRN" (by decide) (by decide)

/-- C5: the message over which the HMAC is computed is exactly the nine field
values concatenated in the fixed order PRN, PID, PS, RC, UID, BC, INI, P_AMT,
R_AMT, joined by a single comma with no other escaping or encoding. -/
theorem C5_concatenatedValues_comma_join (p : Payload)
    (v1 v2 v3 v4 v5 v6 v7 v8 v9 : String)
    (h1 : getField p "PRN" = some v1) (h2 : getField p "PID" = some v2)
    (h3 : getField p "PS" = some v3) (h4 : getField p "RC" = some v4)
    (h5 : getField p "UID" = some v5) (h6 : getField p "BC" = some v6)
    (h7 : getField p "INI" = some v7) (h8 : getField p "P_AMT" = some v8)
    (h9 : getField p "R_AMT" = some v9) :
    concatenatedValues p =
      v1 ++ "," ++ v2 ++ "," ++ v3 ++ "," ++ v4 ++ "," ++ v5 ++ "," ++ v6 ++
        "," ++ v7 ++ "," ++ v8 ++ "," ++ v9 := by
  simp [concatenatedValues, order, h1, h2, h3, h4, h5, h6, h7, h8, h9, joinWith,
    String.append_assoc]

theorem C5_concatenatedValues_comma_join_witness :
    concatenatedValues exPayload =
      "ORDER1,M001,success,successful,T123,B01,C,100.00,0.00" :=
  (C5_concatenatedValues_comma_join exPayload "ORDER1" "M001" "success"
    "successful" "T123" "B01" "C" "100.00" "0.00"
    rfl rfl rfl rfl rfl rfl rfl rfl rfl).trans rfl

/-- C6: for a null/undefined payload, or for an empty-string secretKey with
any payload, `verifyResponse` returns false (the required-input error is
caught internally, so nothing is thrown to the caller). -/
theorem C6_verifyResponse_null_or_empty_key :
    (∀ k, verifyResponse none k = false) ∧
      (∀ r, verifyResponse r "" = false) := by
  constructor
  · intro k; rfl
  · intro r
    cases r with
    | none => rfl
    | some p => simp [verifyResponse, verifyResponseWith, verifyCoreWith]

/-- C7 (counterexample): the claim says every payload whose `DV` is not a
well-formed hex string yields false; but `Buffer.from(_, "hex")` truncates at
the first non-hex character instead of failing, so a `DV` consisting of the
correct digest followed by "zz" is not well-formed hex yet verifies as
true. -/
theorem C7_malformed_dv_counterexample :
    isHexString cexDV = false ∧
      getField cexPayload "DV" = some cexDV ∧
      verifyResponse (some cexPayload) "s3cr3t" = true := by
  refine ⟨by decide, rfl, ?_⟩
  decide!

/-- C7 (amended): for every payload with all ten fields present and a
non-empty secretKey whose `DV` field is not a well-formed hex string, the
decode does not fail: `Buffer.from(_, "hex")` truncates at the first invalid
character (dropping a trailing lone digit), and `verifyResponse` returns false
unless `RC` is the success sentinel and the truncated decode of `DV` equals
the computed digest, in which case it returns true. -/
theorem C7_malformed_dv_truncation (p : Payload)
    (k v1 v2 v3 v4 v5 v6 v7 v8 v9 dv : String) (hk : k ≠ "")
    (h1 : getField p "PRN" = some v1) (h2 : getField p "PID" = some v2)
    (h3 : getField p "PS" = some v3) (h4 : getField p "RC" = some v4)
    (h5 : getField p "UID" = some v5) (h6 : getField p "BC" = some v6)
    (h7 : getField p "INI" = some v7) (h8 : getField p "P_AMT" = some v8)
    (h9 : getField p "R_AMT" = some v9) (h10 : getField p "DV" = some dv)
    (_hbad : isHexString dv = false) :
    (verifyResponse (some p) k = true ↔
      (v4 = RESPONSE_CODE_SUCCESSFUL ∧
       hexDecode dv =
         hmacSha512Bytes (joinWith "," [v1, v2, v3, v4, v5, v6, v7, v8, v9]) k)) :=
  verifyResponse_true_characterization p k v1 v2 v3 v4 v5 v6 v7 v8 v9 dv hk
    h1 h2 h3 h4 h5 h6 h7 h8 h9 h10

theorem C7_malformed_dv_truncation_witness :
    (verifyResponse
        (some [("PRN", "a1"), ("PID", "b1"), ("PS", "c1"), ("RC", "successful"),
               ("UID", "d1"), ("BC", "e1"), ("INI", "f1"), ("P_AMT", "1.00"),
               ("R_AMT", "0.00"), ("DV", "zz")]) "key1" = true ↔
      ("successful" = RESPONSE_CODE_SUCCESSFUL ∧
       hexDecode "zz" =
         hmacSha512Bytes
           (joinWith "," ["a1", "b1", "c1", "successful", "d1", "e1", "f1",
                          "1.00", "0.00"]) "key1")) :=
  C7_malformed_dv_truncation
    [("PRN", "a1"), ("PID", "b1"), ("PS", "c1"), ("RC", "successful"),
     ("UID", "d1"), ("BC", "e1"), ("INI", "f1"), ("P_AMT", "1.00"),
     ("R_AMT", "0.00"), ("DV", "zz")]
    "key1" "a1" "b1" "c1" "successful" "d1" "e1" "f1" "1.00" "0.00" "zz"
    (by decide) rfl rfl rfl rfl rfl rfl rfl rfl rfl rfl (by decide)

/-- C8: when the byte sequence decoded from the payload's `DV` has a length
other than the 64 bytes of the locally computed HMAC-SHA512 digest, the
comparison is treated as unequal: the internal `RangeError` of
`crypto.timingSafeEqual` is caught and `verifyResponse` returns false rather
than throwing, for every payload with `RC` equal to the success sentinel and
all nine required fields present. -/
theorem C8_verifyResponse_dv_length_mismatch (p : Payload) (k dv : String)
    (hk : k ≠ "") (hrc : getField p "RC" = some RESPONSE_CODE_SUCCESSFUL)
    (hmiss : missingFields p = []) (hdv : getField p "DV" = some dv)
    (hlen : (hexDecode dv).length ≠ 64) :
    verifyResponse (some p) k = false := by
  have hcore := verifyCore_after_guards generateHmacSha512 p k dv hk hrc hmiss
    (generateHmacSha512_ne_empty _ _) hdv
  have hdiglen :
      (hexDecode (generateHmacSha512 (concatenatedValues p) k)).length = 64 := by
    rw [hexDecode_generateHmacSha512]
    exact hmacSha512Bytes_length _ _
  rw [if_pos (by rw [hdiglen]; exact fun heq => hlen heq.symm)] at hcore
  simp [verifyResponse, verifyResponseWith, hcore]

theorem C8_verifyResponse_dv_length_mismatch_witness :
    verifyResponse
      (some [("PRN", "a1"), ("PID", "b1"), ("PS", "c1"), ("RC", "successful"),
             ("UID", "d1"), ("BC", "e1"), ("INI", "f1"), ("P_AMT", "1.00"),
             ("R_AMT", "0.00"), ("DV", "abcd")]) "key1" = false :=
  C8_verifyResponse_dv_length_mismatch
    [("PRN", "a1"), ("PID", "b1"), ("PS", "c1"), ("RC", "successful"),
     ("UID", "d1"), ("BC", "e1"), ("INI", "f1"), ("P_AMT", "1.00"),
     ("R_AMT", "0.00"), ("DV", "abcd")]
    "key1" "abcd" (by decide) rfl (by decide) rfl (by decide)

/-- C9: a payload with `RC` equal to the success sentinel and all nine non-DV
fields present but without the `DV` key passes the field-completeness check
(which excludes `DV`), and fails only when `Buffer.from(undefined, "hex")`
throws; the error is caught, so `verifyResponse` returns false and does not
throw. -/
theorem C9_verifyResponse_absent_dv (p : Payload) (k : String) (hk : k ≠ "")
    (hrc : getField p "RC" = some RESPONSE_CODE_SUCCESSFUL)
    (hmiss : missingFields p = []) (hdv : getField p "DV" = none) :
    verifyCoreWith generateHmacSha512 (some p) k =
      Except.error "The first argument must be of type string" ∧
      verifyResponse (some p) k = false := by
  have hcore : verifyCoreWith generateHmacSha512 (some p) k =
      Except.error "The first argument must be of type string" := by
    simp only [verifyCoreWith]
    simp [hk, hrc, hmiss, generateHmacSha512_ne_empty, hdv]
  exact ⟨hcore, by simp [verifyResponse, verifyResponseWith, hcore]⟩

theorem C9_verifyResponse_absent_dv_witness :
    verifyCoreWith generateHmacSha512
        (some [("PRN", "a1"), ("PID", "b1"), ("PS", "c1"), ("RC", "successful"),
               ("UID", "d1"), ("BC", "e1"), ("INI", "f1"), ("P_AMT", "1.00"),
               ("R_AMT", "0.00")]) "key1" =
      Except.error "The first argument must be of type string" ∧
      verifyResponse
        (some [("PRN", "a1"), ("PID", "b1"), ("PS", "c1"), ("RC", "successful"),
               ("UID", "d1"), ("BC", "e1"), ("INI", "f1"), ("P_AMT", "1.00"),
               ("R_AMT", "0.00")]) "key1" = false :=
  C9_verifyResponse_absent_dv
    [("PRN", "a1"), ("PID", "b1"), ("PS", "c1"), ("RC", "successful"),
     ("UID", "d1"), ("BC", "e1"), ("INI", "f1"), ("P_AMT", "1.00"),
     ("R_AMT", "0.00")]
    "key1" (by decide) rfl (by decide) rfl

/-- C10: the `DV` comparison is case-insensitive in the hex digits: two
payloads that agree on every field other than `DV` and whose `DV` values
differ only in the case of letter characters produce the same
`verifyResponse` result, because both spellings decode to the same byte
sequence before comparison. -/
theorem C10_verifyResponse_dv_case_insensitive (p1 p2 : Payload) (k : String)
    (hf : ∀ f, f ≠ "DV" → getField p1 f = getField p2 f)
    (hdv : dvCaseEquiv (getField p1 "DV") (getField p2 "DV")) :
    verifyResponse (some p1) k = verifyResponse (some p2) k := by
  have hRC := hf "RC" (by decide)
  have hmiss : missingFields p1 = missingFields p2 := by
    unfold missingFields
    refine List.filter_congr ?_
    intro f hfmem
    have hne : f ≠ "DV" := fun heq => by subst heq; revert hfmem; decide
    rw [hf f hne]
  have hconcat : concatenatedValues p1 = concatenatedValues p2 := by
    unfold concatenatedValues
    refine congrArg (joinWith ",") (List.map_congr_left ?_)
    intro f hfmem
    have hne : f ≠ "DV" := fun heq => by subst heq; revert hfmem; decide
    rw [hf f hne]
  rcases hdv1 : getField p1 "DV" with _ | d1 <;>
    rcases hdv2 : getField p2 "DV" with _ | d2 <;>
    rw [hdv1, hdv2] at hdv
  · simp only [verifyResponse, verifyResponseWith, verifyCoreWith]
    rw [hRC, hmiss, hconcat, hdv1, hdv2]
  · exact hdv.elim
  · exact hdv.elim
  · have hd : hexDecode d1 = hexDecode d2 := hexDecode_caseEquiv d1 d2 hdv
    simp only [verifyResponse, verifyResponseWith, verifyCoreWith]
    rw [hRC, hmiss, hconcat, hdv1, hdv2]
    simp [hd]

theorem C10_verifyResponse_dv_case_insensitive_witness :
    verifyResponse (some [("RC", "successful"), ("DV", "AB")]) "key1" =
      verifyResponse (some [("RC", "successful"), ("DV", "ab")]) "key1" :=
  C10_verifyResponse_dv_case_insensitive
    [("RC", "successful"), ("DV", "AB")] [("RC", "successful"), ("DV", "ab")]
    "key1" (by intro f hf; simp [getField, hf]) (by decide)
